import Mathlib

/-
Verification development for the single-arm manipulator core of
pybullet-helpers (src/pybullet_helpers/robots/single_arm.py).

The physics engine is modelled as an explicit joint-state map together with a
trace of engine commands; every stateful method of SingleArmPyBulletRobot
becomes a function from a joint state to a RunResult that carries the resulting
joint state, the engine commands issued, and either a value or the raised
error. Joint values are rationals (standing in for floats), joint indices are
integers (the BASE_LINK sentinel is -1).
-/

namespace PybulletHelpers

/-- Engine joint state: position value of every joint index. -/
abbrev JointState := ℤ → ℚ

/-- A 6-DOF pose: position (px, py, pz) and quaternion orientation
(ox, oy, oz, ow), as in pybullet_helpers.geometry.Pose. -/
structure Pose where
  px : ℚ
  py : ℚ
  pz : ℚ
  ox : ℚ
  oy : ℚ
  oz : ℚ
  ow : ℚ
deriving DecidableEq, Repr

/-- The error kinds raised by the source of single_arm.py: the assert in
set_joints and set_motors (AssertionError), the unrecognized-control-mode
branch of set_motors (NotImplementedError), InverseKinematicsError, and
ValueError (raised by _validate_joints_state and link_from_name). The spec
names these DimensionMismatchError, UnsupportedControlModeError,
InverseKinematicsError and the validation-mismatch ValueError respectively;
the source defines no further error kind (in particular no NoIKSolutionError). -/
inductive RobotError where
  | assertionError
  | notImplementedError
  | inverseKinematicsError
  | valueError
deriving DecidableEq, Repr

/-- Commands issued to the physics engine: p.resetJointState (one joint write,
velocity reset to zero) and p.setJointMotorControlArray (one batched
position-control command). -/
inductive EngineCmd where
  | resetJointState (jointId : ℤ) (value : ℚ)
  | setJointMotorControlArray (jointIds : List ℤ) (targets : List ℚ)
deriving DecidableEq, Repr

/-- Result of running one method against the engine: the joint state after the
call, the engine commands issued during the call, and either the returned
value or the raised error. Errors keep the state reached at raise time, as
Python exceptions do. -/
inductive RunResult (α : Type) where
  | ok (s : JointState) (trace : List EngineCmd) (a : α)
  | err (s : JointState) (trace : List EngineCmd) (e : RobotError)

/-- Sequencing of engine-affecting computations: an error short-circuits,
a success passes the new state on and accumulates the command trace. -/
def RunResult.bind {α β : Type} : RunResult α → (JointState → α → RunResult β) → RunResult β
  | .ok s t a, f =>
    match f s a with
    | .ok s2 t2 b => .ok s2 (t ++ t2) b
    | .err s2 t2 e => .err s2 (t ++ t2) e
  | .err s t e, _ => .err s t e

/-- The joint state after the call (present both on return and on raise). -/
def RunResult.stateOf {α : Type} : RunResult α → JointState
  | .ok s _ _ => s
  | .err s _ _ => s

/-- The engine commands issued during the call. -/
def RunResult.traceOf {α : Type} : RunResult α → List EngineCmd
  | .ok _ t _ => t
  | .err _ t _ => t

/-- The raised error, if any. -/
def RunResult.errorOf {α : Type} : RunResult α → Option RobotError
  | .ok _ _ _ => none
  | .err _ _ e => some e

/-- The returned value, if the call did not raise. -/
def RunResult.valueOf {α : Type} : RunResult α → Option α
  | .ok _ _ a => some a
  | .err _ _ _ => none

/-- Modelled from the spec: the BASE_LINK sentinel of pybullet_helpers.link
(not under src/), the reserved link index -1 meaning the fixed base link. -/
def BASE_LINK : ℤ := -1

/-- One record of self.joint_infos as used by link_from_name: the owning joint
index and the name of its child link. -/
structure JointInfo where
  jointIndex : ℤ
  linkName : String
deriving DecidableEq, Repr

/-- One robot instance together with its engine collaborators. The list and
scalar fields are the configuration and cached chain data of
SingleArmPyBulletRobot; the function fields are the external collaborators
(analytic IKFast solver, engine forward kinematics of the end-effector link,
and the generic pybullet_inverse_kinematics solver). -/
structure RobotSpec where
  baseLinkName : String
  jointInfos : List JointInfo
  /-- The joint indices returned by get_kinematic_chain for the end effector. -/
  kinematicChain : List ℤ
  leftFingerId : ℤ
  rightFingerId : ℤ
  openFingers : ℚ
  defaultHomeJointPositions : List ℚ
  homeJointPositions : List ℚ
  controlMode : String
  /-- Whether ikfast_info() returns a profile (selects the analytic IK path). -/
  hasIkfast : Bool
  /-- External analytic solver: seed state and target pose to ranked arm-only
  solutions (ikfast_closest_inverse_kinematics). -/
  ikSolutions : JointState → Pose → List (List ℚ)
  /-- Engine forward kinematics: world pose of the end-effector link as a
  function of the current joint state (get_link_state). -/
  linkState : JointState → Pose
  /-- External generic solver (pybullet_inverse_kinematics, not under src/). -/
  pybulletIk : JointState → Pose → Bool → RunResult (List ℚ)

/-- Source line 52-54 of the constructor: the home vector is the caller
supplied one when that argument is truthy, else the default
(`home_joint_positions or self.default_home_joint_positions`). -/
def mk_home_joint_positions (home_joint_positions : Option (List ℚ))
    (default_home : List ℚ) : List ℚ :=
  match home_joint_positions with
  | some h => if h.isEmpty then default_home else h
  | none => default_home

/-- arm_joints: the kinematic chain sorted ascending, with the left and right
finger joint ids appended at the end (single_arm.py lines 132-146). -/
def arm_joints (r : RobotSpec) : List ℤ :=
  (List.insertionSort (· ≤ ·) r.kinematicChain) ++ [r.leftFingerId, r.rightFingerId]

/-- Python list.index: position of the first occurrence. -/
def pyIndex (l : List ℤ) (a : ℤ) : ℕ :=
  l.findIdx (fun x => x == a)

/-- left_finger_joint_idx: index of the left finger joint id within arm_joints. -/
def left_finger_joint_idx (r : RobotSpec) : ℕ :=
  pyIndex (arm_joints r) r.leftFingerId

/-- right_finger_joint_idx: index of the right finger joint id within arm_joints. -/
def right_finger_joint_idx (r : RobotSpec) : ℕ :=
  pyIndex (arm_joints r) r.rightFingerId

/-- link_from_name: the base link name maps to BASE_LINK; otherwise the first
joint whose child link has the given name supplies its joint index; otherwise
ValueError (single_arm.py lines 181-190). -/
def link_from_name (r : RobotSpec) (link_name : String) : Except RobotError ℤ :=
  if link_name = r.baseLinkName then
    .ok BASE_LINK
  else
    match r.jointInfos.find? (fun info => info.linkName == link_name) with
    | some info => .ok info.jointIndex
    | none => .error .valueError

/-- get_joints: read the engine state of every arm joint, in chain order.
No side effects. -/
def get_joints (r : RobotSpec) (s : JointState) : List ℚ :=
  (arm_joints r).map s

/-- One p.resetJointState write: joint jointId takes the value, all other
joints are unchanged. -/
def writeJoint (s : JointState) (jointId : ℤ) (v : ℚ) : JointState :=
  fun k => if k = jointId then v else s k

/-- Sequential per-joint writes, left to right. -/
def writeAll (s : JointState) : List (ℤ × ℚ) → JointState
  | [] => s
  | pr :: rest => writeAll (writeJoint s pr.1 pr.2) rest

/-- set_joints: assert the vector has chain length, then overwrite each arm
joint one at a time in chain order via p.resetJointState (single_arm.py
lines 264-280). The assert fires before any write. -/
def set_joints (r : RobotSpec) (s : JointState) (joint_positions : List ℚ) :
    RunResult Unit :=
  if joint_positions.length = (arm_joints r).length then
    .ok (writeAll s ((arm_joints r).zip joint_positions))
      (((arm_joints r).zip joint_positions).map (fun pr => .resetJointState pr.1 pr.2))
      ()
  else
    .err s [] .assertionError

/-- set_motors: assert chain length; in control mode "position" issue one
batched p.setJointMotorControlArray command (the engine state itself is only
moved by later simulation steps); in mode "reset" behave as set_joints; any
other mode raises NotImplementedError (single_arm.py lines 303-321). -/
def set_motors (r : RobotSpec) (s : JointState) (joint_positions : List ℚ) :
    RunResult Unit :=
  if joint_positions.length = (arm_joints r).length then
    if r.controlMode = "position" then
      .ok s [.setJointMotorControlArray (arm_joints r) joint_positions] ()
    else if r.controlMode = "reset" then
      set_joints r s joint_positions
    else
      .err s [] .notImplementedError
  else
    .err s [] .assertionError

/-- go_home: the source calls set_motors on default_home_joint_positions
(single_arm.py lines 323-325). -/
def go_home (r : RobotSpec) (s : JointState) : RunResult Unit :=
  set_motors r s r.defaultHomeJointPositions

/-- Constructor tail (single_arm.py line 66): after loading the body the robot
is teleported to its home joint positions via set_joints. -/
def robot_init (r : RobotSpec) (s0 : JointState) : RunResult Unit :=
  set_joints r s0 r.homeJointPositions

/-- forward_kinematics: set_joints then read the end-effector link pose
(single_arm.py lines 327-342). The joint-state mutation is deliberate. -/
def forward_kinematics (r : RobotSpec) (s : JointState) (joint_positions : List ℚ) :
    RunResult Pose :=
  RunResult.bind (set_joints r s joint_positions) (fun s1 _ => .ok s1 [] (r.linkState s1))

/-- The pose computed by forward_kinematics, if it did not raise. -/
def fkPoseOf (r : RobotSpec) (s : JointState) (joint_positions : List ℚ) : Option Pose :=
  (forward_kinematics r s joint_positions).valueOf

/-- The default relative tolerance of np.allclose. -/
def npRtol : ℚ := 1 / 100000

/-- One coordinate of np.allclose with explicit atol: abs (a - b) is at most
atol + rtol * abs b, with the numpy default rtol. -/
def npIsclose (a b atol : ℚ) : Bool :=
  |a - b| ≤ atol + npRtol * |b|

/-- np.allclose of the two position 3-vectors, coordinatewise. -/
def posAllclose (ee target : Pose) (atol : ℚ) : Bool :=
  npIsclose ee.px target.px atol && npIsclose ee.py target.py atol &&
    npIsclose ee.pz target.pz atol

/-- _validate_joints_state (single_arm.py lines 344-371): save the current
joint vector, set the candidate, read the end-effector position, restore the
saved vector unconditionally, and only then raise ValueError when the position
was not allclose to the target position. Orientation is not inspected. -/
def validate_joints_state (r : RobotSpec) (s : JointState) (joint_positions : List ℚ)
    (target_pose : Pose) (validation_atol : ℚ) : RunResult Unit :=
  let initial_joint_states := get_joints r s
  RunResult.bind (set_joints r s joint_positions) (fun s1 _ =>
    let pos_is_close := posAllclose (r.linkState s1) target_pose validation_atol
    RunResult.bind (set_joints r s1 initial_joint_states) (fun s2 _ =>
      if pos_is_close then .ok s2 [] () else .err s2 [] .valueError))

/-- Python list.insert: insert before position i, clamping i to the length
(insertion at or past the end appends). -/
def pyInsert {α : Type} (xs : List α) (i : ℕ) (a : α) : List α :=
  xs.take i ++ a :: xs.drop i

/-- The finger-insertion step of _ikfast_inverse_kinematics (single_arm.py
lines 399-405): sort the two finger slots, insert the open-finger value at the
lower slot, then at the higher slot. -/
def addFingersToState (r : RobotSpec) (joint_positions : List ℚ) : List ℚ :=
  let first_finger_idx := min (left_finger_joint_idx r) (right_finger_joint_idx r)
  let second_finger_idx := max (left_finger_joint_idx r) (right_finger_joint_idx r)
  pyInsert (pyInsert joint_positions first_finger_idx r.openFingers)
    second_finger_idx r.openFingers

/-- _ikfast_inverse_kinematics (single_arm.py lines 381-407): ask the analytic
solver; zero candidates raise InverseKinematicsError; otherwise take the first
(closest) solution and insert the open-finger values. No engine state is
touched. -/
def ikfast_inverse_kinematics (r : RobotSpec) (s : JointState)
    (end_effector_pose : Pose) : RunResult (List ℚ) :=
  match r.ikSolutions s end_effector_pose with
  | [] => .err s [] .inverseKinematicsError
  | sol :: _ => .ok s [] (addFingersToState r sol)

/-- inverse_kinematics (single_arm.py lines 409-458). With an IKFast profile:
analytic solve, then, when validate is set, _validate_joints_state with the
ValueError re-raised as InverseKinematicsError. Without a profile: the generic
solver. Finally, when the set_joints flag is set and no error was raised, the
result vector is applied via set_joints. -/
def inverse_kinematics (r : RobotSpec) (s : JointState) (end_effector_pose : Pose)
    (validate : Bool) (set_joints_flag : Bool) (validation_atol : ℚ) :
    RunResult (List ℚ) :=
  let main : RunResult (List ℚ) :=
    if r.hasIkfast then
      RunResult.bind (ikfast_inverse_kinematics r s end_effector_pose) (fun s1 q =>
        if validate then
          match validate_joints_state r s1 q end_effector_pose validation_atol with
          | .ok s2 t _ => .ok s2 t q
          | .err s2 t .valueError => .err s2 t .inverseKinematicsError
          | .err s2 t e => .err s2 t e
        else .ok s1 [] q)
    else
      r.pybulletIk s end_effector_pose validate
  RunResult.bind main (fun s1 q =>
    if set_joints_flag then
      RunResult.bind (set_joints r s1 q) (fun s2 _ => .ok s2 [] q)
    else
      .ok s1 [] q)

/-- Modelled from the spec: get_kinematic_chain of pybullet_helpers.joint (not
under src/): starting from the end-effector joint, follow parent links toward
the base, collecting visited joint indices, until the BASE_LINK sentinel is
reached; the fuel bound makes a traversal that never reaches the base fail
(ChainBuildError, returned here as none). -/
def get_kinematic_chain (parentOf : ℤ → ℤ) : ℕ → ℤ → Option (List ℤ)
  | 0, j => if j = BASE_LINK then some [] else none
  | fuel + 1, j =>
      if j = BASE_LINK then some []
      else (get_kinematic_chain parentOf fuel (parentOf j)).map (fun rest => j :: rest)

/-! Concrete instances used to evaluate the model on explicit inputs. -/

/-- The identity pose: zero position, identity quaternion. -/
def identityPose : Pose := ⟨0, 0, 0, 0, 0, 0, 1⟩

/-- The all-zero joint state. -/
def sZero : JointState := fun _ => 0

/-- A small concrete robot: one arm joint 0 plus fingers 1 and 2, position
control, no analytic profile, inert collaborators. -/
def baseRobot : RobotSpec where
  baseLinkName := "base"
  jointInfos := []
  kinematicChain := [0]
  leftFingerId := 1
  rightFingerId := 2
  openFingers := 1 / 25
  defaultHomeJointPositions := [0, 0, 0]
  homeJointPositions := [0, 0, 0]
  controlMode := "position"
  hasIkfast := false
  ikSolutions := fun _ _ => []
  linkState := fun _ => identityPose
  pybulletIk := fun s _ _ => .ok s [] []

/-- An analytic-profile robot whose end-effector x position equals joint 0. -/
def rbC1 : RobotSpec :=
  { baseRobot with
    hasIkfast := true
    ikSolutions := fun _ _ => [[1 / 2]]
    linkState := fun st => { identityPose with px := st 0 } }

/-- Target pose reached by rbC1 at joint value 1/2. -/
def poseC1 : Pose := { identityPose with px := 1 / 2 }

/-- An analytic-profile robot whose end-effector x position is
100 + 3/1000 times joint 0: at the solver candidate 1/2 it lands 3/2000 away
from x = 100, outside atol = 1/1000 but inside allclose with rtol = 1/100000. -/
def rbC2 : RobotSpec :=
  { baseRobot with
    hasIkfast := true
    ikSolutions := fun _ _ => [[1 / 2]]
    linkState := fun st => { identityPose with px := 100 + st 0 * (3 / 1000) } }

/-- Far-away target pose with x = 100. -/
def poseC2 : Pose := { identityPose with px := 100 }

/-- An analytic-profile robot whose solver returns zero candidates. -/
def rbC3zero : RobotSpec := { baseRobot with hasIkfast := true }

/-- An analytic-profile robot whose solver candidate lands far from any
origin-centered target, so validation always mismatches. -/
def rbC3mis : RobotSpec :=
  { baseRobot with
    hasIkfast := true
    ikSolutions := fun _ _ => [[1 / 2]]
    linkState := fun _ => { identityPose with px := 5, py := 5, pz := 5 } }

/-- A robot constructed with a custom home vector differing from the default. -/
def rbC4 : RobotSpec :=
  { baseRobot with
    homeJointPositions := mk_home_joint_positions (some [1, 1, 1]) [0, 0, 0] }

/-- The chain of the finger-insertion scenario: arm joints 2,4,6,9,10 and
fingers 11, 12. -/
def rbC5 : RobotSpec :=
  { baseRobot with
    kinematicChain := [2, 4, 6, 9, 10]
    leftFingerId := 11
    rightFingerId := 12 }

/-- The arm-only analytic solution of the finger-insertion scenario. -/
def solC5 : List ℚ := [1 / 10, 1 / 5, 3 / 10, 2 / 5, 1 / 2]

/-- A linear joint graph: the parent link of joint j is j - 1. -/
def parentC6 : ℤ → ℤ := fun j => j - 1

/-- The robot whose kinematic chain is the traversal of parentC6 from
joint 4, with fingers 7 and 8 numerically beyond the chain. -/
def rbC6 : RobotSpec :=
  { baseRobot with
    kinematicChain := [4, 3, 2, 1, 0]
    leftFingerId := 7
    rightFingerId := 8 }

/-- A robot in an unrecognized control mode. -/
def rbC8bad : RobotSpec := { baseRobot with controlMode := "velocity" }

/-- A robot in reset (direct teleport) control mode. -/
def rbC8reset : RobotSpec := { baseRobot with controlMode := "reset" }

/-- A robot with a distinctive home vector. -/
def rbC9 : RobotSpec := { baseRobot with homeJointPositions := [1 / 2, 1 / 4, 1 / 8] }

/-- A robot with two named links for the link_from_name lookups. -/
def rbC10 : RobotSpec :=
  { baseRobot with jointInfos := [⟨0, "link0"⟩, ⟨1, "gripper"⟩] }

/-! Helper lemmas about per-joint writes. -/

theorem writeJoint_eq (s : JointState) (i : ℤ) (v : ℚ) : writeJoint s i v i = v := by
  simp [writeJoint]

theorem writeJoint_ne (s : JointState) (i : ℤ) (v : ℚ) (j : ℤ) (h : j ≠ i) :
    writeJoint s i v j = s j := by
  simp [writeJoint, h]

theorem writeAll_not_mem (l : List (ℤ × ℚ)) (s : JointState) (j : ℤ)
    (h : ∀ pr ∈ l, pr.1 ≠ j) : writeAll s l j = s j := by
  induction l generalizing s with
  | nil => rfl
  | cons a t ih =>
      rw [writeAll, ih _ (fun pr hpr => h pr (List.mem_cons_of_mem a hpr)),
        writeJoint_ne _ _ _ _ (Ne.symm (h a (List.mem_cons_self a t)))]

theorem writeAll_agree (l : List (ℤ × ℚ)) (s s2 : JointState) (j : ℤ)
    (h : s j = s2 j) : writeAll s l j = writeAll s2 l j := by
  induction l generalizing s s2 with
  | nil => exact h
  | cons a t ih =>
      rw [writeAll, writeAll]
      apply ih
      by_cases hj : j = a.1
      · subst hj; rw [writeJoint_eq, writeJoint_eq]
      · rw [writeJoint_ne _ _ _ _ hj, writeJoint_ne _ _ _ _ hj]; exact h

theorem writeAll_key_indep (l : List (ℤ × ℚ)) (s s2 : JointState) (j : ℤ)
    (h : ∃ pr ∈ l, pr.1 = j) : writeAll s l j = writeAll s2 l j := by
  induction l generalizing s s2 with
  | nil => simp at h
  | cons a t ih =>
      rw [writeAll, writeAll]
      by_cases ht : ∃ pr ∈ t, pr.1 = j
      · exact ih _ _ ht
      · apply writeAll_agree
        have ha : a.1 = j := by
          rcases h with ⟨pr, hpr, he⟩
          rcases List.mem_cons.mp hpr with h1 | h2
          · rw [h1] at he; exact he
          · exact absurd ⟨pr, h2, he⟩ ht
        rw [← ha, writeJoint_eq, writeJoint_eq]

theorem writeAll_idem (l : List (ℤ × ℚ)) (s : JointState) (j : ℤ) :
    writeAll (writeAll s l) l j = writeAll s l j := by
  by_cases h : ∃ pr ∈ l, pr.1 = j
  · exact writeAll_key_indep l _ s j h
  · push_neg at h
    rw [writeAll_not_mem l _ j h]

theorem writeAll_zip_self (chain : List ℤ) (s base : JointState) (j : ℤ)
    (hj : j ∈ chain) : writeAll base (chain.zip (chain.map s)) j = s j := by
  induction chain generalizing base with
  | nil => exact absurd hj (List.not_mem_nil j)
  | cons a t ih =>
      rw [List.map, List.zip_cons_cons, writeAll]
      by_cases hjt : j ∈ t
      · exact ih _ hjt
      · have hja : j = a := by
          rcases List.mem_cons.mp hj with h1 | h2
          · exact h1
          · exact absurd h2 hjt
        subst hja
        rw [writeAll_not_mem]
        · exact writeJoint_eq base j (s j)
        · intro pr hpr he
          obtain ⟨x, y⟩ := pr
          exact hjt (he ▸ (List.of_mem_zip hpr).1)

theorem writeAll_restore (chain : List ℤ) (s : JointState) (q : List ℚ) :
    writeAll (writeAll s (chain.zip q)) (chain.zip (chain.map s)) = s := by
  funext j
  by_cases hj : j ∈ chain
  · exact writeAll_zip_self chain s _ j hj
  · rw [writeAll_not_mem, writeAll_not_mem]
    · intro pr hpr he
      obtain ⟨x, y⟩ := pr
      exact hj (he ▸ (List.of_mem_zip hpr).1)
    · intro pr hpr he
      obtain ⟨x, y⟩ := pr
      exact hj (he ▸ (List.of_mem_zip hpr).1)

theorem map_writeAll_zip (chain : List ℤ) (q : List ℚ) (s : JointState)
    (hn : chain.Nodup) (hl : q.length = chain.length) :
    chain.map (writeAll s (chain.zip q)) = q := by
  induction chain generalizing q s with
  | nil =>
      cases q with
      | nil => rfl
      | cons v qs => simp at hl
  | cons a t ih =>
      cases q with
      | nil => simp at hl
      | cons v qs =>
          rw [List.zip_cons_cons, writeAll, List.map]
          have hn2 := List.nodup_cons.mp hn
          congr 1
          · rw [writeAll_not_mem]
            · exact writeJoint_eq s a v
            · intro pr hpr he
              obtain ⟨x, y⟩ := pr
              exact hn2.1 (he ▸ (List.of_mem_zip hpr).1)
          · exact ih qs _ hn2.2 (by simpa using hl)

/-! Helper lemmas about Python list.insert. -/

theorem pyInsert_zero {α : Type} (xs : List α) (a : α) : pyInsert xs 0 a = a :: xs := by
  simp [pyInsert]

theorem pyInsert_succ_cons {α : Type} (x : α) (xs : List α) (i : ℕ) (a : α) :
    pyInsert (x :: xs) (i + 1) a = x :: pyInsert xs i a := by
  simp [pyInsert]

theorem pyInsert_length {α : Type} (xs : List α) (i : ℕ) (a : α) :
    (pyInsert xs i a).length = xs.length + 1 := by
  simp [pyInsert]
  omega

theorem pyInsert_getElem_self {α : Type} (xs : List α) (i : ℕ) (a : α)
    (h : i ≤ xs.length) : (pyInsert xs i a)[i]? = some a := by
  unfold pyInsert
  rw [List.getElem?_append_right]
  · simp [List.length_take, Nat.min_eq_left h]
  · simp [List.length_take]

theorem pyInsert_getElem_lt {α : Type} (xs : List α) (i : ℕ) (a : α) (j : ℕ)
    (hj : j < i) (hi : i ≤ xs.length) : (pyInsert xs i a)[j]? = xs[j]? := by
  unfold pyInsert
  have hlt : j < (List.take i xs).length := by
    simp [List.length_take]
    omega
  rw [List.getElem?_append, if_pos hlt, List.getElem?_take_of_lt hj]

theorem eraseIdx_pyInsert {α : Type} (xs : List α) (i : ℕ) (a : α)
    (h : i ≤ xs.length) : (pyInsert xs i a).eraseIdx i = xs := by
  induction xs generalizing i with
  | nil =>
      have h0 : i = 0 := Nat.le_zero.mp h
      subst h0; rfl
  | cons x t ih =>
      cases i with
      | zero => rfl
      | succ n =>
          rw [pyInsert_succ_cons, List.eraseIdx_cons_succ, ih n (by simpa using h)]

/-! Behavior lemmas for the engine operations. -/

theorem set_joints_of_length (r : RobotSpec) (s : JointState) (q : List ℚ)
    (h : q.length = (arm_joints r).length) :
    set_joints r s q =
      .ok (writeAll s ((arm_joints r).zip q))
        (((arm_joints r).zip q).map (fun pr => .resetJointState pr.1 pr.2)) () := by
  simp [set_joints, h]

theorem get_joints_length (r : RobotSpec) (s : JointState) :
    (get_joints r s).length = (arm_joints r).length := by
  simp [get_joints]

theorem writeAll_restore_get (r : RobotSpec) (s : JointState) (q : List ℚ) :
    writeAll (writeAll s ((arm_joints r).zip q)) ((arm_joints r).zip (get_joints r s)) =
      s :=
  writeAll_restore (arm_joints r) s q

theorem validate_joints_state_stateOf (r : RobotSpec) (s : JointState) (q : List ℚ)
    (target : Pose) (atol : ℚ) :
    (validate_joints_state r s q target atol).stateOf = s := by
  unfold validate_joints_state
  by_cases hq : q.length = (arm_joints r).length
  · simp only [set_joints_of_length r s q hq, RunResult.bind]
    rw [set_joints_of_length r _ _ (get_joints_length r s)]
    by_cases hc : posAllclose (r.linkState (writeAll s ((arm_joints r).zip q))) target atol
    · simp [RunResult.bind, hc, RunResult.stateOf, writeAll_restore_get]
    · simp [RunResult.bind, hc, RunResult.stateOf, writeAll_restore_get]
  · simp [set_joints, hq, RunResult.bind, RunResult.stateOf]

theorem validate_joints_state_errorOf_close (r : RobotSpec) (s : JointState)
    (q : List ℚ) (target : Pose) (atol : ℚ)
    (hq : q.length = (arm_joints r).length)
    (hclose : posAllclose (r.linkState (writeAll s ((arm_joints r).zip q))) target
      atol = true) :
    (validate_joints_state r s q target atol).errorOf = none := by
  unfold validate_joints_state
  simp only [set_joints_of_length r s q hq, RunResult.bind]
  rw [set_joints_of_length r _ _ (get_joints_length r s)]
  simp [RunResult.bind, hclose, RunResult.errorOf]

theorem validate_joints_state_errorOf_mismatch (r : RobotSpec) (s : JointState)
    (q : List ℚ) (target : Pose) (atol : ℚ)
    (hq : q.length = (arm_joints r).length)
    (hclose : posAllclose (r.linkState (writeAll s ((arm_joints r).zip q))) target
      atol = false) :
    (validate_joints_state r s q target atol).errorOf = some .valueError := by
  unfold validate_joints_state
  simp only [set_joints_of_length r s q hq, RunResult.bind]
  rw [set_joints_of_length r _ _ (get_joints_length r s)]
  simp [RunResult.bind, hclose, RunResult.errorOf]

theorem ik_zero_eval (r : RobotSpec) (s : JointState) (pose : Pose)
    (validate set_joints_flag : Bool) (atol : ℚ) (hik : r.hasIkfast = true)
    (hz : r.ikSolutions s pose = []) :
    inverse_kinematics r s pose validate set_joints_flag atol =
      .err s [] .inverseKinematicsError := by
  simp [inverse_kinematics, hik, ikfast_inverse_kinematics, hz, RunResult.bind]

theorem ik_mismatch_eval (r : RobotSpec) (s : JointState) (pose : Pose) (atol : ℚ)
    (sol : List ℚ) (rest : List (List ℚ)) (set_joints_flag : Bool)
    (hik : r.hasIkfast = true) (hsol : r.ikSolutions s pose = sol :: rest)
    (hq : (addFingersToState r sol).length = (arm_joints r).length)
    (hclose : posAllclose
      (r.linkState (writeAll s ((arm_joints r).zip (addFingersToState r sol)))) pose
      atol = false) :
    (inverse_kinematics r s pose true set_joints_flag atol).errorOf =
      some .inverseKinematicsError ∧
    (inverse_kinematics r s pose true set_joints_flag atol).stateOf = s := by
  have hst := validate_joints_state_stateOf r s (addFingersToState r sol) pose atol
  have herr := validate_joints_state_errorOf_mismatch r s (addFingersToState r sol)
    pose atol hq hclose
  unfold inverse_kinematics
  simp only [hik, if_true, ikfast_inverse_kinematics, hsol, RunResult.bind]
  cases hv : validate_joints_state r s (addFingersToState r sol) pose atol with
  | ok s2 t u => rw [hv] at herr; simp [RunResult.errorOf] at herr
  | err s2 t e =>
      rw [hv] at herr hst
      simp only [RunResult.errorOf, Option.some.injEq] at herr
      simp only [RunResult.stateOf] at hst
      subst herr hst
      simp [RunResult.errorOf, RunResult.stateOf]

theorem ik_ok_eval (r : RobotSpec) (s : JointState) (pose : Pose) (atol : ℚ)
    (sol : List ℚ) (rest : List (List ℚ))
    (hik : r.hasIkfast = true) (hsol : r.ikSolutions s pose = sol :: rest)
    (hq : (addFingersToState r sol).length = (arm_joints r).length)
    (hclose : posAllclose
      (r.linkState (writeAll s ((arm_joints r).zip (addFingersToState r sol)))) pose
      atol = true) :
    (inverse_kinematics r s pose true true atol).errorOf = none ∧
    (inverse_kinematics r s pose true true atol).valueOf =
      some (addFingersToState r sol) ∧
    (inverse_kinematics r s pose true true atol).stateOf =
      writeAll s ((arm_joints r).zip (addFingersToState r sol)) := by
  have hst := validate_joints_state_stateOf r s (addFingersToState r sol) pose atol
  have herr := validate_joints_state_errorOf_close r s (addFingersToState r sol)
    pose atol hq hclose
  unfold inverse_kinematics
  simp only [hik, if_true, ikfast_inverse_kinematics, hsol, RunResult.bind]
  cases hv : validate_joints_state r s (addFingersToState r sol) pose atol with
  | err s2 t e => rw [hv] at herr; simp [RunResult.errorOf] at herr
  | ok s2 t u =>
      rw [hv] at hst
      simp only [RunResult.stateOf] at hst
      simp only [RunResult.bind]
      rw [hst, set_joints_of_length r s _ hq]
      simp [RunResult.errorOf, RunResult.valueOf, RunResult.stateOf]

/-- C7: set_joints has the precondition that the supplied vector has the arm
chain length; when the lengths differ it fails with the dimension-mismatch
error (the assert of single_arm.py line 272, the spec's
DimensionMismatchError), raised before any joint write: the engine state is
returned untouched and no engine command is issued. -/
theorem C7_set_joints_dimension_mismatch (r : RobotSpec) (s : JointState)
    (q : List ℚ) (h : q.length ≠ (arm_joints r).length) :
    set_joints r s q = .err s [] .assertionError := by
  simp [set_joints, h]

theorem C7_witness :
    ([1, 2] : List ℚ).length ≠ (arm_joints baseRobot).length ∧
      set_joints baseRobot sZero [1, 2] = .err sZero [] .assertionError :=
  ⟨by decide, C7_set_joints_dimension_mismatch baseRobot sZero [1, 2] (by decide)⟩

/-- C8: for a chain-length vector, set_motors in reset mode (the spec's
directReset) is the same computation as set_joints, and set_motors in any mode
other than "position" and "reset" fails with the unsupported-control-mode
error (NotImplementedError, the spec's UnsupportedControlModeError) without
issuing any engine command and without touching the engine state. -/
theorem C8_set_motors_modes (r : RobotSpec) (s : JointState) (q : List ℚ)
    (hlen : q.length = (arm_joints r).length) :
    (r.controlMode = "reset" → set_motors r s q = set_joints r s q) ∧
    (r.controlMode ≠ "position" → r.controlMode ≠ "reset" →
      set_motors r s q = .err s [] .notImplementedError) := by
  constructor
  · intro hm
    simp [set_motors, hlen, hm]
  · intro h1 h2
    simp [set_motors, hlen, h1, h2]

theorem C8_witness :
    (set_motors rbC8reset sZero [1, 2, 3] = set_joints rbC8reset sZero [1, 2, 3]) ∧
    (set_motors rbC8bad sZero [1, 2, 3] = .err sZero [] .notImplementedError) :=
  ⟨(C8_set_motors_modes rbC8reset sZero [1, 2, 3] (by decide)).1 rfl,
   (C8_set_motors_modes rbC8bad sZero [1, 2, 3] (by decide)).2 (by decide) (by decide)⟩

/-- C9: when the constructor's teleport-to-home succeeds (and the arm chain has
no duplicate joint index), the engine joint state of every arm chain joint
equals the instance home vector, so a first get_joints call returns exactly the
home joint positions. -/
theorem C9_init_at_home (r : RobotSpec) (s0 : JointState)
    (hn : (arm_joints r).Nodup)
    (hok : (robot_init r s0).errorOf = none) :
    get_joints r ((robot_init r s0).stateOf) = r.homeJointPositions := by
  unfold robot_init at *
  by_cases hl : r.homeJointPositions.length = (arm_joints r).length
  · rw [set_joints_of_length r s0 _ hl]
    simp only [RunResult.stateOf, get_joints]
    exact map_writeAll_zip _ _ _ hn hl
  · simp [set_joints, hl, RunResult.errorOf] at hok

theorem C9_witness :
    (arm_joints rbC9).Nodup ∧ (robot_init rbC9 sZero).errorOf = none ∧
      get_joints rbC9 ((robot_init rbC9 sZero).stateOf) = rbC9.homeJointPositions :=
  ⟨by decide, by decide, C9_init_at_home rbC9 sZero (by decide) (by decide)⟩

/-- C10: link_from_name maps the base link name to the BASE_LINK sentinel,
maps any other name carried by some link to the owning joint index of a link
with that name, and fails with ValueError when no link of the body has the
name. -/
theorem C10_link_from_name (r : RobotSpec) (link_name : String) :
    (link_name = r.baseLinkName → link_from_name r link_name = .ok BASE_LINK) ∧
    (link_name ≠ r.baseLinkName →
      (∃ info ∈ r.jointInfos, info.linkName = link_name) →
      ∃ info ∈ r.jointInfos, info.linkName = link_name ∧
        link_from_name r link_name = .ok info.jointIndex) ∧
    (link_name ≠ r.baseLinkName →
      (∀ info ∈ r.jointInfos, info.linkName ≠ link_name) →
      link_from_name r link_name = .error .valueError) := by
  refine ⟨fun h => by simp [link_from_name, h], fun h hex => ?_, fun h hall => ?_⟩
  · cases hf : r.jointInfos.find? (fun info => info.linkName == link_name) with
    | none =>
        rcases hex with ⟨info, hmem, hname⟩
        have hnone := List.find?_eq_none.mp hf info hmem
        simp [hname] at hnone
    | some info =>
        refine ⟨info, List.mem_of_find?_eq_some hf, ?_, ?_⟩
        · have hp := List.find?_some hf
          simpa using hp
        · simp [link_from_name, h, hf]
  · cases hf : r.jointInfos.find? (fun info => info.linkName == link_name) with
    | none => simp [link_from_name, h, hf]
    | some info =>
        have hp := List.find?_some hf
        have hmem := List.mem_of_find?_eq_some hf
        simp at hp
        exact absurd hp (hall info hmem)

theorem C10_witness :
    link_from_name rbC10 "base" = .ok BASE_LINK ∧
    (∃ info ∈ rbC10.jointInfos, info.linkName = "gripper" ∧
      link_from_name rbC10 "gripper" = .ok info.jointIndex) ∧
    link_from_name rbC10 "nolink" = .error .valueError :=
  ⟨(C10_link_from_name rbC10 "base").1 rfl,
   (C10_link_from_name rbC10 "gripper").2.1 (by decide) ⟨⟨1, "gripper"⟩, by decide, rfl⟩,
   (C10_link_from_name rbC10 "nolink").2.2 (by decide) (by decide)⟩

/-- C4 counterexample: a robot constructed with the custom home vector
[1, 1, 1] (default [0, 0, 0]) issues a different motor command from go_home
than from set_motors on its own home vector, refuting the claim that go_home
is equivalent to set_motors of the instance home vector. -/
theorem C4_counterexample :
    rbC4.homeJointPositions = [1, 1, 1] ∧
    rbC4.defaultHomeJointPositions = [0, 0, 0] ∧
    (go_home rbC4 sZero).traceOf ≠
      (set_motors rbC4 sZero rbC4.homeJointPositions).traceOf := by
  refine ⟨by decide, rfl, by decide⟩

/-- C4 amended: go_home is equivalent to set_motors on the robot type's
default home vector (single_arm.py line 325 passes default_home_joint_positions,
not the instance home vector); whenever the instance home vector differs from
the default, the motor command issued by go_home in position mode differs from
the one set_motors issues for the instance home vector. -/
theorem C4_go_home_uses_default (r : RobotSpec) (s : JointState) :
    go_home r s = set_motors r s r.defaultHomeJointPositions ∧
    (r.controlMode = "position" →
      r.defaultHomeJointPositions.length = (arm_joints r).length →
      r.homeJointPositions.length = (arm_joints r).length →
      r.homeJointPositions ≠ r.defaultHomeJointPositions →
      (go_home r s).traceOf ≠ (set_motors r s r.homeJointPositions).traceOf) := by
  refine ⟨rfl, fun hm hld hlh hne => ?_⟩
  simp only [go_home, set_motors, hld, hlh, hm, if_true, if_pos, RunResult.traceOf]
  intro hcontra
  simp at hcontra
  exact hne hcontra.symm

theorem C4_witness :
    go_home rbC4 sZero = set_motors rbC4 sZero rbC4.defaultHomeJointPositions ∧
    (go_home rbC4 sZero).traceOf ≠
      (set_motors rbC4 sZero rbC4.homeJointPositions).traceOf :=
  ⟨(C4_go_home_uses_default rbC4 sZero).1,
   (C4_go_home_uses_default rbC4 sZero).2 rfl (by decide) (by decide) (by decide)⟩

/-- C5: on the analytic path, inserting the open-finger value first at the
lower finger slot and then at the higher one turns an arm-only solution of
chain length minus two into a chain-length vector carrying the open value at
both finger slots, and removing those two slots again recovers the arm-only
solution unchanged (all arm entries keep their relative order). -/
theorem C5_finger_insertion (r : RobotSpec) (sol : List ℚ)
    (hlr : left_finger_joint_idx r < right_finger_joint_idx r)
    (hrb : right_finger_joint_idx r < (arm_joints r).length)
    (hlen : sol.length + 2 = (arm_joints r).length) :
    (addFingersToState r sol).length = (arm_joints r).length ∧
    (addFingersToState r sol)[left_finger_joint_idx r]? = some r.openFingers ∧
    (addFingersToState r sol)[right_finger_joint_idx r]? = some r.openFingers ∧
    ((addFingersToState r sol).eraseIdx (right_finger_joint_idx r)).eraseIdx
      (left_finger_joint_idx r) = sol := by
  have hmin : min (left_finger_joint_idx r) (right_finger_joint_idx r) =
      left_finger_joint_idx r := Nat.min_eq_left (Nat.le_of_lt hlr)
  have hmax : max (left_finger_joint_idx r) (right_finger_joint_idx r) =
      right_finger_joint_idx r := Nat.max_eq_right (Nat.le_of_lt hlr)
  have hl_le : left_finger_joint_idx r ≤ sol.length := by omega
  have hr_le : right_finger_joint_idx r ≤
      (pyInsert sol (left_finger_joint_idx r) r.openFingers).length := by
    rw [pyInsert_length]; omega
  unfold addFingersToState
  rw [hmin, hmax]
  refine ⟨?_, ?_, ?_, ?_⟩
  · rw [pyInsert_length, pyInsert_length]; omega
  · rw [pyInsert_getElem_lt _ _ _ _ hlr hr_le, pyInsert_getElem_self _ _ _ hl_le]
  · exact pyInsert_getElem_self _ _ _ hr_le
  · rw [eraseIdx_pyInsert _ _ _ hr_le, eraseIdx_pyInsert _ _ _ hl_le]

theorem C5_witness :
    left_finger_joint_idx rbC5 < right_finger_joint_idx rbC5 ∧
    right_finger_joint_idx rbC5 < (arm_joints rbC5).length ∧
    solC5.length + 2 = (arm_joints rbC5).length ∧
    addFingersToState rbC5 solC5 =
      [1 / 10, 1 / 5, 3 / 10, 2 / 5, 1 / 2, 1 / 25, 1 / 25] ∧
    ((addFingersToState rbC5 solC5).length = (arm_joints rbC5).length ∧
      (addFingersToState rbC5 solC5)[left_finger_joint_idx rbC5]? =
        some rbC5.openFingers ∧
      (addFingersToState rbC5 solC5)[right_finger_joint_idx rbC5]? =
        some rbC5.openFingers ∧
      ((addFingersToState rbC5 solC5).eraseIdx (right_finger_joint_idx rbC5)).eraseIdx
        (left_finger_joint_idx rbC5) = solC5) :=
  ⟨by decide, by decide, by decide, rfl,
    C5_finger_insertion rbC5 solC5 (by decide) (by decide) (by decide)⟩

/-- C6: for a robot description whose joint graph traversal from the end
effector reaches the base, the built arm chain is a sorted-ascending
permutation of the traversed arm joints followed by exactly the two configured
finger joint ids at the last two positions (left then right); its length is
the number of non-finger arm joints plus two, and the finger ids never occur
inside the sorted part even when numerically interleaved with it. -/
theorem C6_arm_chain_structure (r : RobotSpec) (parentOf : ℤ → ℤ) (fuel : ℕ)
    (ee : ℤ)
    (_hchain : get_kinematic_chain parentOf fuel ee = some r.kinematicChain)
    (hlf : r.leftFingerId ∉ r.kinematicChain)
    (hrf : r.rightFingerId ∉ r.kinematicChain) :
    (arm_joints r).length = r.kinematicChain.length + 2 ∧
    ∃ sortedArm : List ℤ,
      arm_joints r = sortedArm ++ [r.leftFingerId, r.rightFingerId] ∧
      sortedArm.Sorted (· ≤ ·) ∧
      sortedArm.Perm r.kinematicChain ∧
      r.leftFingerId ∉ sortedArm ∧ r.rightFingerId ∉ sortedArm := by
  have hperm := List.perm_insertionSort (· ≤ ·) r.kinematicChain
  refine ⟨?_, List.insertionSort (· ≤ ·) r.kinematicChain, rfl,
    List.sorted_insertionSort _ _, hperm, ?_, ?_⟩
  · simp [arm_joints, hperm.length_eq]
  · exact fun hm => hlf (hperm.mem_iff.mp hm)
  · exact fun hm => hrf (hperm.mem_iff.mp hm)

theorem C6_witness :
    get_kinematic_chain parentC6 10 4 = some rbC6.kinematicChain ∧
    rbC6.leftFingerId ∉ rbC6.kinematicChain ∧
    rbC6.rightFingerId ∉ rbC6.kinematicChain ∧
    ((arm_joints rbC6).length = rbC6.kinematicChain.length + 2 ∧
      ∃ sortedArm : List ℤ,
        arm_joints rbC6 = sortedArm ++ [rbC6.leftFingerId, rbC6.rightFingerId] ∧
        sortedArm.Sorted (· ≤ ·) ∧
        sortedArm.Perm rbC6.kinematicChain ∧
        rbC6.leftFingerId ∉ sortedArm ∧ rbC6.rightFingerId ∉ sortedArm) :=
  ⟨by decide, by decide, by decide,
    C6_arm_chain_structure rbC6 parentC6 10 4 (by decide) (by decide) (by decide)⟩

/-- C3 amended: on the analytic path, zero candidate solutions from the
analytic solver make inverse_kinematics fail with InverseKinematicsError
(single_arm.py line 391) before any engine state is touched: the state is
returned exactly as it was and no engine command was issued. The source
defines no separate NoIKSolutionError kind: this failure carries the same
error kind as a validation mismatch. -/
theorem C3_zero_candidates (r : RobotSpec) (s : JointState) (pose : Pose)
    (validate set_joints_flag : Bool) (atol : ℚ) (hik : r.hasIkfast = true)
    (hz : r.ikSolutions s pose = []) :
    inverse_kinematics r s pose validate set_joints_flag atol =
      .err s [] .inverseKinematicsError := by
  simp [inverse_kinematics, hik, ikfast_inverse_kinematics, hz, RunResult.bind]

/-- C3 counterexample: with concrete robots, the error raised for zero
analytic candidates is InverseKinematicsError itself, the very same error
value raised for a validation mismatch, so the claimed distinct
NoIKSolutionError kind does not exist and callers cannot distinguish the two
failures by kind. -/
theorem C3_counterexample :
    (inverse_kinematics rbC3zero sZero identityPose true true (1 / 1000)).errorOf =
      some .inverseKinematicsError ∧
    (inverse_kinematics rbC3mis sZero identityPose true false (1 / 1000)).errorOf =
      some .inverseKinematicsError ∧
    (inverse_kinematics rbC3zero sZero identityPose true true (1 / 1000)).errorOf =
      (inverse_kinematics rbC3mis sZero identityPose true false (1 / 1000)).errorOf := by
  have h1 : (inverse_kinematics rbC3zero sZero identityPose true true (1 / 1000)).errorOf =
      some RobotError.inverseKinematicsError := rfl
  have hq : (addFingersToState rbC3mis [1 / 2]).length = (arm_joints rbC3mis).length :=
    rfl
  have hclose : posAllclose
      (rbC3mis.linkState
        (writeAll sZero ((arm_joints rbC3mis).zip (addFingersToState rbC3mis [1 / 2]))))
      identityPose (1 / 1000) = false := by
    simp only [rbC3mis, baseRobot, identityPose, posAllclose, npIsclose, npRtol]
    norm_num
  have h2 := (ik_mismatch_eval rbC3mis sZero identityPose (1 / 1000) [1 / 2] [] false
    rfl rfl hq hclose).1
  exact ⟨h1, h2, h1.trans h2.symm⟩

theorem C3_witness :
    rbC3zero.hasIkfast = true ∧
    rbC3zero.ikSolutions sZero identityPose = [] ∧
    inverse_kinematics rbC3zero sZero identityPose false false (1 / 1000) =
      .err sZero [] .inverseKinematicsError :=
  ⟨rfl, rfl, C3_zero_candidates rbC3zero sZero identityPose false false (1 / 1000)
    rfl rfl⟩

theorem ik_assert_eval (r : RobotSpec) (s : JointState) (pose : Pose) (atol : ℚ)
    (sol : List ℚ) (rest : List (List ℚ)) (set_joints_flag : Bool)
    (hik : r.hasIkfast = true) (hsol : r.ikSolutions s pose = sol :: rest)
    (hq : (addFingersToState r sol).length ≠ (arm_joints r).length) :
    (inverse_kinematics r s pose true set_joints_flag atol).errorOf =
      some .assertionError := by
  have hv : validate_joints_state r s (addFingersToState r sol) pose atol =
      .err s [] .assertionError := by
    unfold validate_joints_state
    simp [set_joints, hq, RunResult.bind]
  unfold inverse_kinematics
  simp only [hik, if_true, ikfast_inverse_kinematics, hsol, RunResult.bind]
  rw [hv]
  simp [RunResult.bind, RunResult.errorOf]

/-- C1: for a robot with an analytic IK profile, inverse_kinematics with
validate set and the apply flag cleared leaves get_joints unchanged from its
value before the call, whether validation succeeds or raises: the saved joint
state is restored unconditionally before the call returns or raises. -/
theorem C1_validate_no_apply_preserves_joints (r : RobotSpec) (s : JointState)
    (pose : Pose) (atol : ℚ) (hik : r.hasIkfast = true) :
    get_joints r ((inverse_kinematics r s pose true false atol).stateOf) =
      get_joints r s := by
  have hstate : (inverse_kinematics r s pose true false atol).stateOf = s := by
    unfold inverse_kinematics
    simp only [hik, if_true]
    cases hz : r.ikSolutions s pose with
    | nil =>
        simp [ikfast_inverse_kinematics, hz, RunResult.bind, RunResult.stateOf]
    | cons sol rest =>
        have hst := validate_joints_state_stateOf r s (addFingersToState r sol)
          pose atol
        simp only [ikfast_inverse_kinematics, hz, RunResult.bind]
        cases hv : validate_joints_state r s (addFingersToState r sol) pose atol with
        | ok s2 t u =>
            rw [hv] at hst
            simp only [RunResult.stateOf] at hst
            simp [RunResult.bind, RunResult.stateOf, hst]
        | err s2 t e =>
            rw [hv] at hst
            simp only [RunResult.stateOf] at hst
            cases e <;> simp [RunResult.bind, RunResult.stateOf, hst]
  rw [hstate]

theorem C1_witness :
    rbC1.hasIkfast = true ∧
    get_joints rbC1
        ((inverse_kinematics rbC1 sZero poseC1 true false (1 / 1000)).stateOf) =
      get_joints rbC1 sZero :=
  ⟨rfl, C1_validate_no_apply_preserves_joints rbC1 sZero poseC1 (1 / 1000) rfl⟩

/-- C2 amended: for a robot with an analytic IK profile, inverse_kinematics
with validate and apply set either raises, or returns a vector v such that
each coordinate of the position of forward_kinematics at v is within
validation_atol plus the np.allclose relative term (the numpy default rtol of
1/100000 times the magnitude of the corresponding target coordinate) of the
target position; orientation is not checked by validation. -/
theorem C2_ik_position_allclose (r : RobotSpec) (s : JointState) (pose : Pose)
    (atol : ℚ) (hik : r.hasIkfast = true)
    (hok : (inverse_kinematics r s pose true true atol).errorOf = none) :
    ∃ v p, (inverse_kinematics r s pose true true atol).valueOf = some v ∧
      fkPoseOf r ((inverse_kinematics r s pose true true atol).stateOf) v = some p ∧
      |p.px - pose.px| ≤ atol + npRtol * |pose.px| ∧
      |p.py - pose.py| ≤ atol + npRtol * |pose.py| ∧
      |p.pz - pose.pz| ≤ atol + npRtol * |pose.pz| := by
  cases hz : r.ikSolutions s pose with
  | nil =>
      rw [ik_zero_eval r s pose true true atol hik hz] at hok
      simp [RunResult.errorOf] at hok
  | cons sol rest =>
      by_cases hq : (addFingersToState r sol).length = (arm_joints r).length
      · by_cases hclose : posAllclose
            (r.linkState (writeAll s ((arm_joints r).zip (addFingersToState r sol))))
            pose atol = true
        · obtain ⟨he, hval, hst⟩ := ik_ok_eval r s pose atol sol rest hik hz hq hclose
          simp only [posAllclose, npIsclose, Bool.and_eq_true, decide_eq_true_eq]
            at hclose
          refine ⟨addFingersToState r sol,
            r.linkState (writeAll s ((arm_joints r).zip (addFingersToState r sol))),
            hval, ?_, hclose.1.1, hclose.1.2, hclose.2⟩
          rw [hst]
          unfold fkPoseOf forward_kinematics
          rw [set_joints_of_length r _ _ hq]
          simp only [RunResult.bind, RunResult.valueOf]
          have hidem : writeAll
              (writeAll s ((arm_joints r).zip (addFingersToState r sol)))
              ((arm_joints r).zip (addFingersToState r sol)) =
              writeAll s ((arm_joints r).zip (addFingersToState r sol)) := by
            funext j
            exact writeAll_idem _ _ j
          rw [hidem]
        · rw [Bool.not_eq_true] at hclose
          rw [(ik_mismatch_eval r s pose atol sol rest true hik hz hq hclose).1] at hok
          simp at hok
      · rw [ik_assert_eval r s pose atol sol rest true hik hz hq] at hok
        simp at hok

theorem rbC2_hclose :
    posAllclose
      (rbC2.linkState
        (writeAll sZero ((arm_joints rbC2).zip (addFingersToState rbC2 [1 / 2]))))
      poseC2 (1 / 1000) = true := by
  have hlink : rbC2.linkState
      (writeAll sZero ((arm_joints rbC2).zip (addFingersToState rbC2 [1 / 2]))) =
      { identityPose with px := 100 + 1 / 2 * (3 / 1000) } := rfl
  rw [hlink]
  simp only [posAllclose, npIsclose, npRtol, poseC2, identityPose,
    Bool.and_eq_true, decide_eq_true_eq]
  norm_num
  rw [abs_of_nonneg (by norm_num : (0 : ℚ) ≤ 3 / 2000)]
  norm_num

/-- C2 counterexample: at a far-away target (x = 100) the rtol term of
np.allclose widens the accepted band to 2/1000, so validation accepts a
candidate whose forward-kinematics position differs from the target by
3/2000, strictly more than the validation tolerance 1/1000: the call returns
the vector without raising, yet its end-effector position is not within
validationTolerance of the target position. -/
theorem C2_counterexample :
    (inverse_kinematics rbC2 sZero poseC2 true true (1 / 1000)).errorOf = none ∧
    (inverse_kinematics rbC2 sZero poseC2 true true (1 / 1000)).valueOf =
      some [1 / 2, 1 / 25, 1 / 25] ∧
    fkPoseOf rbC2 ((inverse_kinematics rbC2 sZero poseC2 true true (1 / 1000)).stateOf)
        [1 / 2, 1 / 25, 1 / 25] =
      some { identityPose with px := 100 + 1 / 2 * (3 / 1000) } ∧
    ¬ (|(100 + 1 / 2 * (3 / 1000) : ℚ) - poseC2.px| ≤ 1 / 1000) := by
  obtain ⟨he, hval, hst⟩ :=
    ik_ok_eval rbC2 sZero poseC2 (1 / 1000) [1 / 2] [] rfl rfl rfl rbC2_hclose
  refine ⟨he, ?_, ?_, ?_⟩
  · rw [hval]
    rfl
  · rw [hst]
    rfl
  · simp only [poseC2, identityPose]
    rw [show (100 + 1 / 2 * (3 / 1000) : ℚ) - 100 = 3 / 2000 by norm_num]
    rw [abs_of_nonneg (by norm_num : (0 : ℚ) ≤ 3 / 2000)]
    norm_num

theorem C2_witness :
    rbC2.hasIkfast = true ∧
    (inverse_kinematics rbC2 sZero poseC2 true true (1 / 1000)).errorOf = none ∧
    (∃ v p,
      (inverse_kinematics rbC2 sZero poseC2 true true (1 / 1000)).valueOf = some v ∧
      fkPoseOf rbC2 ((inverse_kinematics rbC2 sZero poseC2 true true (1 / 1000)).stateOf)
        v = some p ∧
      |p.px - poseC2.px| ≤ 1 / 1000 + npRtol * |poseC2.px| ∧
      |p.py - poseC2.py| ≤ 1 / 1000 + npRtol * |poseC2.py| ∧
      |p.pz - poseC2.pz| ≤ 1 / 1000 + npRtol * |poseC2.pz|) := by
  have hok : (inverse_kinematics rbC2 sZero poseC2 true true (1 / 1000)).errorOf =
      none :=
    (ik_ok_eval rbC2 sZero poseC2 (1 / 1000) [1 / 2] [] rfl rfl rfl rbC2_hclose).1
  exact ⟨rfl, hok, C2_ik_position_allclose rbC2 sZero poseC2 (1 / 1000) rfl hok⟩

end PybulletHelpers
